import Mathlib

/-!
# librtmfp: timestamp codec and the C boundary of the session orchestrator

A shallow embedding of `RTMFP::Time` (RTMFP.h) and of the `extern "C"` functions of
`sources/librtmfp.cpp`.

* C integers are mathematical integers (`Int`, `Nat`); a conversion to a narrower or unsigned
  type is an explicit function (`toUInt16`, `toUInt32`, `toChar`).
* The process-wide `shared<Invoker> GlobalInvoker` is the field `World.GlobalInvoker`, an
  `Option` over the orchestrator state: `none` is the unset pointer.
* Class `Invoker` and the header `librtmfp.h` are not part of the fragment.  The methods the
  boundary calls are taken as a parameter (`Invoker σ`, state transformers on an arbitrary
  orchestrator state `σ`), the constants of the header as a parameter (`Header`).
* `World.calls` records, in order, every method invoked on the orchestrator; `World.logs`
  records the messages given to the `ERROR` logging facility.
-/

namespace RTMFP

/-! ## RTMFP.h : timestamp codec -/

/-- RTMFP.h line 14: `#define RTMFP_TIMESTAMP_SCALE 4`. -/
def RTMFP_TIMESTAMP_SCALE : Int := 4

/-- RTMFP.h line 64: `Time(Int64 timeVal) { return (timeVal / RTMFP_TIMESTAMP_SCALE)&0xFFFF; }`.
C++ `/` truncates toward zero (`Int.tdiv`); `&` is the two-complement bitwise and
(`Int.land`).  The result lies in `0..65535`, so the conversion to `UInt16` is the identity. -/
def Time (timeVal : Int) : Int :=
  Int.land (Int.tdiv timeVal RTMFP_TIMESTAMP_SCALE) 0xFFFF

/-! ## Integer conversions of the C boundary -/

/-- Conversion of an integer value to `unsigned short` (16 bits). -/
def toUInt16 (v : Int) : Int := v % 65536

/-- Conversion of an integer value to `unsigned int` (32 bits). -/
def toUInt32 (v : Int) : Int := v % 4294967296

/-- Conversion of an integer value to `char` (8 bits); whether plain `char` is signed is a
property of the platform, taken as the parameter `signedChar`. -/
def toChar (signedChar : Bool) (v : Int) : Int :=
  if signedChar then (v + 128) % 256 - 128 else v % 256

/-! ## Declarations that live outside the fragment -/

/-- Constants of `librtmfp.h` used by `librtmfp.cpp`; their values are not in the fragment. -/
structure Header where
  ERROR_LAST_INTERRUPT : Int
  ERROR_APP_INTERRUPT : Int
  RTMFP_PEER_CONNECTED : Int
  RTMFP_GROUP_CONNECTED : Int
  RTMFP_PUBLISHED : Int
  RTMFP_P2P_PUBLISHED : Int
  RTMFP_LIB_VERSION : Int

/-- Byte image of `struct RTMFPConfig` (declared in `librtmfp.h`; `librtmfp.cpp` names none of
its fields): `bytes.length` is `sizeof(RTMFPConfig)`. -/
structure RTMFPConfig where
  bytes : List Nat
deriving DecidableEq, Repr

/-- The part of `struct RTMFPGroupConfig` that `librtmfp.cpp` names, field by field, and the
byte image `rest` of every other field of the struct. -/
structure RTMFPGroupConfig where
  isPublisher : Int
  isBlocking : Int
  availabilityUpdatePeriod : Int
  relayMargin : Int
  fetchPeriod : Int
  windowDuration : Int
  pushLimit : Int
  rest : List Nat
deriving DecidableEq, Repr

/-- Methods of class `Invoker` called by `librtmfp.cpp`, each a function of the orchestrator
state before the call that gives the returned integer and the state after the call.
`set` is the construction `GlobalInvoker.set(onLog, onDump)`; a callback is `none` when the
function pointer is null.  `read` also gives the contents of the buffer after the call. -/
structure Invoker (σ : Type) where
  set : Option Nat → Option Nat → σ
  start : σ → σ
  connect : σ → String → Option RTMFPConfig → Int × σ
  connect2Peer : σ → Nat → String → String → Int × σ
  connect2Group : σ → Nat → String → Option RTMFPConfig → Option RTMFPGroupConfig →
    Bool → Bool → String → Int × σ
  addStream : σ → Nat → Int → String → Bool → Bool → Int × σ
  closePublication : σ → Nat → String → Int × σ
  closeStream : σ → Nat → Nat → Int × σ
  removeConnection : σ → Nat → Bool → Int × σ
  read : σ → Nat → Nat → List Nat → Nat → Int × List Nat × σ
  write : σ → Nat → List Nat → Int → Int × σ
  callFunction : σ → Nat → String → Int → List String → String → Int × σ
  waitForEvent : σ → Nat → Int → Int × σ

/-- One invocation of a method of the orchestrator, with the connection handle it was given
(and, for `waitForEvent`, the event mask). -/
inductive Call where
  | start
  | connect
  | connect2Peer (RTMFPcontext : Nat)
  | connect2Group (RTMFPcontext : Nat)
  | addStream (RTMFPcontext : Nat) (mask : Int)
  | closePublication (RTMFPcontext : Nat)
  | closeStream (RTMFPcontext : Nat)
  | removeConnection (RTMFPcontext : Nat)
  | read (RTMFPcontext : Nat)
  | write (RTMFPcontext : Nat)
  | callFunction (RTMFPcontext : Nat)
  | waitForEvent (RTMFPcontext : Nat) (mask : Int)
deriving DecidableEq, Repr

/-- Process-wide state seen by the boundary functions. -/
structure World (σ : Type) where
  GlobalInvoker : Option σ
  calls : List Call
  logs : List String
  dump : Option String

namespace World

variable {σ : Type}

/-- The logging call `ERROR(msg)`. -/
def log (w : World σ) (msg : String) : World σ :=
  { w with logs := w.logs ++ [msg] }

/-- State after the method recorded as `c` returned, leaving the orchestrator in `inv`. -/
def called (w : World σ) (c : Call) (inv : σ) : World σ :=
  { w with GlobalInvoker := some inv, calls := w.calls ++ [c] }

end World

/-- Message logged by most entry points when `GlobalInvoker` is unset. -/
def notInitialised : String := "RTMFP_Init() has not been called, please call it first"

section Boundary

variable {σ : Type}

/-! ## sources/librtmfp.cpp -/

/-- Lines 74-77: `if (GlobalInvoker) GlobalInvoker.reset();`. -/
def RTMFP_Terminate (w : World σ) : World σ :=
  match w.GlobalInvoker with
  | some _ => { w with GlobalInvoker := none }
  | none => w

/-- Lines 36-45: the two interrupt cases fall through to `RTMFP_Terminate()`, every other
code reaches `default: break`; the function returns 0 in all cases. -/
def HandleError (H : Header) (error : Int) (w : World σ) : Int × World σ :=
  if error = H.ERROR_LAST_INTERRUPT ∨ error = H.ERROR_APP_INTERRUPT then
    (0, RTMFP_Terminate w)
  else
    (0, w)

/-- Writes the five defaults of lines 67-71 over a zero-filled `RTMFPGroupConfig`
(`memset(groupConfig, 0, sizeof(RTMFPGroupConfig))`, line 66). -/
def groupDefaults (g : RTMFPGroupConfig) : RTMFPGroupConfig :=
  let z : RTMFPGroupConfig :=
    { isPublisher := 0, isBlocking := 0, availabilityUpdatePeriod := 0, relayMargin := 0,
      fetchPeriod := 0, windowDuration := 0, pushLimit := 0,
      rest := List.replicate g.rest.length 0 }
  { z with availabilityUpdatePeriod := 100, relayMargin := 2000, fetchPeriod := 2500,
           windowDuration := 8000, pushLimit := 4 }

/-- Lines 47-72.  The result is the state after the call and the contents of `*config` and
`*groupConfig` after the call (`none` for a null pointer). -/
def RTMFP_Init (I : Invoker σ) (config : Option RTMFPConfig)
    (groupConfig : Option RTMFPGroupConfig) (onLog onDump : Option Nat) (w : World σ) :
    World σ × Option RTMFPConfig × Option RTMFPGroupConfig :=
  match config with
  | none => (w.log ("config parameter must be not null"), none, groupConfig)
  | some c =>
    let w1 : World σ :=
      match w.GlobalInvoker with
      | some _ => w
      | none =>
        let started := w.called Call.start (I.start (I.set onLog onDump))
        if onDump.isSome then { started with dump := some ("LIBRTMFP") } else started
    let c0 : RTMFPConfig := { bytes := List.replicate c.bytes.length 0 }
    match groupConfig with
    | none => (w1, some c0, none)
    | some g => (w1, some c0, some (groupDefaults g))

/-- Lines 79-81. -/
def RTMFP_LibVersion (H : Header) : Int := H.RTMFP_LIB_VERSION

/-- Lines 83-90; the function returns `unsigned int`. -/
def RTMFP_Connect (I : Invoker σ) (url : String) (parameters : Option RTMFPConfig)
    (w : World σ) : Int × World σ :=
  match w.GlobalInvoker with
  | none =>
    (toUInt32 0,
      w.log ("RTMFP_Init() has not been called, please call it before trying to connect"))
  | some inv =>
    let r := I.connect inv url parameters
    (toUInt32 r.1, w.called Call.connect r.2)

/-- Lines 92-108; the function returns `unsigned short`. -/
def RTMFP_Connect2Peer (H : Header) (I : Invoker σ) (RTMFPcontext : Nat)
    (peerId streamName : String) (blocking : Int) (w : World σ) : Int × World σ :=
  match w.GlobalInvoker with
  | none => (toUInt16 0, w.log notInitialised)
  | some inv =>
    let r := I.connect2Peer inv RTMFPcontext peerId streamName
    let mediaId := r.1
    let w1 := w.called (Call.connect2Peer RTMFPcontext) r.2
    if mediaId ≤ 0 then
      let e := HandleError H mediaId w1
      (toUInt16 e.1, e.2)
    else if blocking = 0 then
      (toUInt16 mediaId, w1)
    else
      let ev := I.waitForEvent r.2 RTMFPcontext H.RTMFP_PEER_CONNECTED
      let w2 := w1.called (Call.waitForEvent RTMFPcontext H.RTMFP_PEER_CONNECTED) ev.2
      if ev.1 > 0 then (toUInt16 mediaId, w2)
      else
        let e := HandleError H mediaId w2
        (toUInt16 e.1, e.2)

/-- Lines 110-126; the function returns `unsigned short`.  The result is `none` when line 121
dereferences a null `groupParameters`. -/
def RTMFP_Connect2Group (H : Header) (I : Invoker σ) (RTMFPcontext : Nat) (streamName : String)
    (parameters : Option RTMFPConfig) (groupParameters : Option RTMFPGroupConfig)
    (audioReliable videoReliable : Nat) (fallbackUrl : String) (w : World σ) :
    Option (Int × World σ) :=
  match w.GlobalInvoker with
  | none => some (toUInt16 0, w.log notInitialised)
  | some inv =>
    let r := I.connect2Group inv RTMFPcontext streamName parameters groupParameters
      (decide (audioReliable > 0)) (decide (videoReliable > 0)) fallbackUrl
    let mediaId := r.1
    let w1 := w.called (Call.connect2Group RTMFPcontext) r.2
    if mediaId ≤ 0 then
      let e := HandleError H mediaId w1
      some (toUInt16 e.1, e.2)
    else
      match groupParameters with
      | none => none
      | some g =>
        if g.isPublisher = 0 ∨ g.isBlocking = 0 then
          some (toUInt16 mediaId, w1)
        else
          let ev := I.waitForEvent r.2 RTMFPcontext H.RTMFP_GROUP_CONNECTED
          let w2 := w1.called (Call.waitForEvent RTMFPcontext H.RTMFP_GROUP_CONNECTED) ev.2
          if ev.1 > 0 then some (toUInt16 mediaId, w2)
          else
            let e := HandleError H mediaId w2
            some (toUInt16 e.1, e.2)

/-- Lines 128-138; the function returns `unsigned short`. -/
def RTMFP_Play (H : Header) (I : Invoker σ) (RTMFPcontext : Nat) (streamName : String)
    (w : World σ) : Int × World σ :=
  match w.GlobalInvoker with
  | none => (toUInt16 0, w.log notInitialised)
  | some inv =>
    let r := I.addStream inv RTMFPcontext 0 streamName true true
    let mediaId := r.1
    let w1 := w.called (Call.addStream RTMFPcontext 0) r.2
    if mediaId ≤ 0 then
      let e := HandleError H mediaId w1
      (toUInt16 e.1, e.2)
    else (toUInt16 mediaId, w1)

/-- Body shared, up to the event mask, by `RTMFP_Publish` (lines 140-156, mask
`RTMFP_PUBLISHED`) and `RTMFP_PublishP2P` (lines 158-174, mask `RTMFP_P2P_PUBLISHED`). -/
def publishWith (H : Header) (I : Invoker σ) (mask : Int) (RTMFPcontext : Nat)
    (streamName : String) (audioReliable videoReliable : Nat) (blocking : Int)
    (w : World σ) : Int × World σ :=
  match w.GlobalInvoker with
  | none => (toUInt16 0, w.log notInitialised)
  | some inv =>
    let r := I.addStream inv RTMFPcontext mask streamName
      (decide (audioReliable > 0)) (decide (videoReliable > 0))
    let mediaId := r.1
    let w1 := w.called (Call.addStream RTMFPcontext mask) r.2
    if mediaId ≤ 0 then
      let e := HandleError H mediaId w1
      (toUInt16 e.1, e.2)
    else if blocking = 0 then
      (toUInt16 mediaId, w1)
    else
      let ev := I.waitForEvent r.2 RTMFPcontext mask
      let w2 := w1.called (Call.waitForEvent RTMFPcontext mask) ev.2
      if ev.1 > 0 then (toUInt16 mediaId, w2)
      else
        let e := HandleError H mediaId w2
        (toUInt16 e.1, e.2)

/-- Lines 140-156; the function returns `unsigned short`. -/
def RTMFP_Publish (H : Header) (I : Invoker σ) (RTMFPcontext : Nat) (streamName : String)
    (audioReliable videoReliable : Nat) (blocking : Int) (w : World σ) : Int × World σ :=
  publishWith H I H.RTMFP_PUBLISHED RTMFPcontext streamName audioReliable videoReliable
    blocking w

/-- Lines 158-174; the function returns `unsigned short`. -/
def RTMFP_PublishP2P (H : Header) (I : Invoker σ) (RTMFPcontext : Nat) (streamName : String)
    (audioReliable videoReliable : Nat) (blocking : Int) (w : World σ) : Int × World σ :=
  publishWith H I H.RTMFP_P2P_PUBLISHED RTMFPcontext streamName audioReliable videoReliable
    blocking w

/-- Lines 176-183; the function returns `unsigned short`; the guard logs nothing. -/
def RTMFP_ClosePublication (I : Invoker σ) (RTMFPcontext : Nat) (streamName : String)
    (w : World σ) : Int × World σ :=
  match w.GlobalInvoker with
  | none => (toUInt16 0, w)
  | some inv =>
    let r := I.closePublication inv RTMFPcontext streamName
    (toUInt16 r.1, w.called (Call.closePublication RTMFPcontext) r.2)

/-- Lines 185-192; the function returns `unsigned short`; the guard logs nothing. -/
def RTMFP_CloseStream (I : Invoker σ) (RTMFPcontext : Nat) (streamId : Nat)
    (w : World σ) : Int × World σ :=
  match w.GlobalInvoker with
  | none => (toUInt16 0, w)
  | some inv =>
    let r := I.closeStream inv RTMFPcontext streamId
    (toUInt16 r.1, w.called (Call.closeStream RTMFPcontext) r.2)

/-- Lines 208-221; the function returns `int`.  The result is the returned value, the
contents of `buf` after the call, and the state after the call. -/
def RTMFP_Read (H : Header) (I : Invoker σ) (streamId : Nat) (RTMFPcontext : Nat)
    (buf : List Nat) (size : Nat) (w : World σ) : Int × List Nat × World σ :=
  match w.GlobalInvoker with
  | none => (-1, buf, w.log notInitialised)
  | some inv =>
    let r := I.read inv RTMFPcontext streamId buf size
    let res := r.1
    let w1 := w.called (Call.read RTMFPcontext) r.2.2
    if res < 0 then
      let e := HandleError H res w1
      (-1, r.2.1, e.2)
    else (res, r.2.1, w1)

/-- Lines 223-230; the function returns `int`. -/
def RTMFP_Write (I : Invoker σ) (RTMFPcontext : Nat) (buf : List Nat) (size : Int)
    (w : World σ) : Int × World σ :=
  match w.GlobalInvoker with
  | none => (-1, w.log notInitialised)
  | some inv =>
    let r := I.write inv RTMFPcontext buf size
    (r.1, w.called (Call.write RTMFPcontext) r.2)

/-- Lines 232-239; the function returns `unsigned int`, so the `return -1` of line 235 is
converted to `unsigned int`. -/
def RTMFP_CallFunction (I : Invoker σ) (RTMFPcontext : Nat) (function : String) (nbArgs : Int)
    (args : List String) (peerId : String) (w : World σ) : Int × World σ :=
  match w.GlobalInvoker with
  | none => (toUInt32 (-1), w.log notInitialised)
  | some inv =>
    let r := I.callFunction inv RTMFPcontext function nbArgs args peerId
    (toUInt32 r.1, w.called (Call.callFunction RTMFPcontext) r.2)

/-- Lines 241-251; the function returns `char`: `return false` is the value 0,
`return HandleError(res)` and `return (char)res` convert an `int` to `char`. -/
def RTMFP_WaitForEvent (H : Header) (I : Invoker σ) (signedChar : Bool) (RTMFPcontext : Nat)
    (mask : Int) (w : World σ) : Int × World σ :=
  match w.GlobalInvoker with
  | none => (toChar signedChar 0, w.log notInitialised)
  | some inv =>
    let r := I.waitForEvent inv RTMFPcontext mask
    let res := r.1
    let w1 := w.called (Call.waitForEvent RTMFPcontext mask) r.2
    if res < 0 then
      let e := HandleError H res w1
      (toChar signedChar e.1, e.2)
    else (toChar signedChar res, w1)

end Boundary

/-! ## `RTMFP_GetPublicationAndUrlFromUri` : C strings in a byte buffer

Memory is a list of byte values; a `char*` is `none` (null) or `some a`, the index `a` of a
byte of that list.  Reading past the end of the list is an out-of-bounds access and makes
the operation undefined (`none`). -/

/-- Code of the character written `'\\'` in the source. -/
def backslash : Nat := 92

/-- Code of the character `'/'`. -/
def slash : Nat := 47

/-- Scan of `strrchr`: `addr` is the address of the head of the list, `last` the address of
the latest byte equal to `c` met so far.  The scan stops at the terminating NUL (which is
part of the string, as in C); it is `none` when the buffer ends before a NUL. -/
def strrchrFrom (c : Nat) : List Nat → Nat → Option Nat → Option (Option Nat)
  | [], _, _ => none
  | b :: rest, addr, last =>
    let last1 := if b = c then some addr else last
    if b = 0 then some last1 else strrchrFrom c rest (addr + 1) last1

/-- `strrchr(s, c)` for the C string at address `s` of `mem`. -/
def strrchr (mem : List Nat) (s : Nat) (c : Nat) : Option (Option Nat) :=
  strrchrFrom c (mem.drop s) s none

/-- Bytes of a list up to, and without, the first NUL; `none` when there is no NUL. -/
def cstrFrom : List Nat → Option (List Nat)
  | [] => none
  | b :: rest => if b = 0 then some [] else (cstrFrom rest).map (fun t => b :: t)

/-- The C string found at address `p` of `mem`. -/
def cstr (mem : List Nat) (p : Nat) : Option (List Nat) :=
  cstrFrom (mem.drop p)

/-- Lines 253-269.  `uri` is the address of the string, `publication` the value of
`*publication` before the call; the result is the memory and `*publication` after it. -/
def RTMFP_GetPublicationAndUrlFromUri (mem : List Nat) (uri : Nat) (publication : Option Nat) :
    Option (List Nat × Option Nat) :=
  match strrchr mem uri backslash, strrchr mem uri slash with
  | some pos, some pos2 =>
    match pos, pos2 with
    | some p, some p2 =>
      some (if p > p2 then mem.set p 0 else mem.set p2 0,
            some (if p > p2 then p + 1 else p2 + 1))
    | some p, none => some (mem.set p 0, some (p + 1))
    | none, some p2 => some (mem.set p2 0, some (p2 + 1))
    | none, none => some (mem, publication)
  | _, _ => none

/-- The two characters at which the uri is split. -/
def isSeparator (b : Nat) : Prop := b = slash ∨ b = backslash

instance (b : Nat) : Decidable (isSeparator b) := by
  unfold isSeparator; infer_instance

/-! ## Vocabulary of the statements and sample data -/

section Vocabulary

variable {σ : Type}

/-- The two error codes that `HandleError` treats as interrupts. -/
def isInterrupt (H : Header) (e : Int) : Prop :=
  e = H.ERROR_LAST_INTERRUPT ∨ e = H.ERROR_APP_INTERRUPT

instance (H : Header) (e : Int) : Decidable (isInterrupt H e) := by
  unfold isInterrupt; infer_instance

/-- A call that started in state `w` ended in `r` as a precondition error: the returned value
is zero or negative, no method of the orchestrator was invoked, the orchestrator is unset. -/
def PreconditionError (w : World σ) (r : Int × World σ) : Prop :=
  r.1 ≤ 0 ∧ r.2.calls = w.calls ∧ r.2.GlobalInvoker = none

/-- The entry recorded for a wait on some event is present in a list of calls. -/
def waited (calls : List Call) : Prop :=
  ∃ c ∈ calls, ∃ ctx mask, c = Call.waitForEvent ctx mask

end Vocabulary

/-- Sample values for the constants of the header (used to evaluate the model on concrete
inputs; no general statement depends on them). -/
def sampleHeader : Header :=
  { ERROR_LAST_INTERRUPT := -1, ERROR_APP_INTERRUPT := -2, RTMFP_PEER_CONNECTED := 2,
    RTMFP_GROUP_CONNECTED := 4, RTMFP_PUBLISHED := 8, RTMFP_P2P_PUBLISHED := 16,
    RTMFP_LIB_VERSION := 1 }

/-- Head of a script of return values (0 when the script is exhausted) and the rest of it. -/
def nextResult : List Int → Int × List Int
  | [] => (0, [])
  | r :: rest => (r, rest)

/-- A sample orchestrator whose state is the script of the values its next calls return. -/
def scripted : Invoker (List Int) :=
  { set := fun _ _ => [],
    start := fun s => s,
    connect := fun s _ _ => nextResult s,
    connect2Peer := fun s _ _ _ => nextResult s,
    connect2Group := fun s _ _ _ _ _ _ _ => nextResult s,
    addStream := fun s _ _ _ _ _ => nextResult s,
    closePublication := fun s _ _ => nextResult s,
    closeStream := fun s _ _ => nextResult s,
    removeConnection := fun s _ _ => nextResult s,
    read := fun s _ _ buf _ => ((nextResult s).1, buf, (nextResult s).2),
    write := fun s _ _ _ => nextResult s,
    callFunction := fun s _ _ _ _ _ => nextResult s,
    waitForEvent := fun s _ _ => nextResult s }

/-- A state in which the orchestrator is `inv` and nothing was called or logged yet. -/
def freshWorld {σ : Type} (inv : Option σ) : World σ :=
  { GlobalInvoker := inv, calls := [], logs := [], dump := none }

/-! ## Timestamp codec: lemmas -/

theorem ldiff_low16 (m : Nat) : Nat.ldiff 65535 m = 65535 - m % 65536 := by
  apply Nat.eq_of_testBit_eq
  intro i
  have h : m % 2 ^ 16 < 2 ^ 16 := Nat.mod_lt _ (by norm_num)
  have h2 := Nat.testBit_two_pow_sub_succ h i
  have e : 65535 - m % 65536 = 2 ^ 16 - (m % 2 ^ 16 + 1) := by norm_num; omega
  rw [e, h2, Nat.testBit_ldiff, Nat.testBit_mod_two_pow]
  have e2 : (65535 : Nat) = 2 ^ 16 - (0 + 1) := by norm_num
  have h3 := Nat.testBit_two_pow_sub_succ (show 0 < 2 ^ 16 by norm_num) i
  rw [e2, h3]
  by_cases hi : i < 16 <;> simp [hi]

/-- On every integer, `& 0xFFFF` is the remainder modulo 2^16 in `0..65535`. -/
theorem land_0xFFFF (x : Int) : Int.land x 0xFFFF = x % 65536 := by
  cases x with
  | ofNat n =>
    show ((n &&& 65535 : Nat) : Int) = (n : Int) % 65536
    have := Nat.and_pow_two_sub_one_eq_mod n 16
    norm_num at this
    rw [this]; norm_cast
  | negSucc m =>
    show ((Nat.ldiff 65535 m : Nat) : Int) = Int.negSucc m % 65536
    rw [ldiff_low16]
    have : Int.negSucc m = -((m : Int) + 1) := by rfl
    rw [this]
    omega

theorem tdiv4_of_nonneg {t : Int} (h : 0 ≤ t) : Int.tdiv t 4 = t / 4 :=
  Int.tdiv_eq_ediv h (by norm_num)

theorem tdiv4_of_neg {t : Int} (h : t < 0) : Int.tdiv t 4 = -((-t) / 4) := by
  have h1 : Int.tdiv (-(-t)) 4 = -(Int.tdiv (-t) 4) := Int.neg_tdiv _ _
  rw [neg_neg] at h1
  rw [h1, Int.tdiv_eq_ediv (by omega) (by norm_num)]

theorem Time_of_nonneg {t : Int} (h : 0 ≤ t) : Time t = (t / 4) % 65536 := by
  unfold Time RTMFP_TIMESTAMP_SCALE
  rw [land_0xFFFF, tdiv4_of_nonneg h]

theorem Time_of_neg {t : Int} (h : t < 0) : Time t = (-((-t) / 4)) % 65536 := by
  unfold Time RTMFP_TIMESTAMP_SCALE
  rw [land_0xFFFF, tdiv4_of_neg h]

/-! ## Timestamp codec: claims C1 and C2 -/

/-- C1 (as stated, refuted): the reading t = -1 is a signed 64-bit value, t + 65536*4 does not
overflow, and yet `Time (-1) = 0` while `Time (-1 + 65536*4) = 65535`: the division
truncates toward zero, so a reading just below zero and its shift by one wrap period land
in different 16-bit values. -/
theorem Time_wrap_counterexample :
    -(2:Int)^63 ≤ -1 ∧ (-1 : Int) + 65536 * RTMFP_TIMESTAMP_SCALE < 2^63 ∧
    Time (-1) = 0 ∧ Time (-1 + 65536 * RTMFP_TIMESTAMP_SCALE) = 65535 ∧
    Time (-1 + 65536 * RTMFP_TIMESTAMP_SCALE) ≠ Time (-1) := by
  decide

/-- C1 (amended): for every signed 64-bit reading t for which t + 65536*4 does not overflow,
`Time (t + 65536*RTMFP_TIMESTAMP_SCALE) = Time t` holds exactly when t is non-negative, or
t + 65536*4 is still negative, or t is a multiple of 4; in particular it holds for every
non-negative clock reading. -/
theorem Time_wrap_iff (t : Int) (_hlo : -(2:Int)^63 ≤ t)
    (hhi : t + 65536 * RTMFP_TIMESTAMP_SCALE < 2^63) :
    (Time (t + 65536 * RTMFP_TIMESTAMP_SCALE) = Time t ↔
      (0 ≤ t ∨ t + 65536 * RTMFP_TIMESTAMP_SCALE < 0 ∨ t % 4 = 0)) ∧
    (0 ≤ t → Time (t + 65536 * RTMFP_TIMESTAMP_SCALE) = Time t) := by
  have hs : RTMFP_TIMESTAMP_SCALE = 4 := rfl
  rw [hs] at hhi ⊢
  have key : Time (t + 65536 * 4) = Time t ↔ (0 ≤ t ∨ t + 65536 * 4 < 0 ∨ t % 4 = 0) := by
    by_cases h0 : 0 ≤ t
    · rw [Time_of_nonneg h0, Time_of_nonneg (show 0 ≤ t + 65536 * 4 by omega)]
      constructor
      · intro _; exact Or.inl h0
      · intro _; omega
    · have hneg : t < 0 := by omega
      by_cases h1 : t + 65536 * 4 < 0
      · rw [Time_of_neg hneg, Time_of_neg h1]
        constructor
        · intro _; exact Or.inr (Or.inl h1)
        · intro _; omega
      · rw [Time_of_neg hneg, Time_of_nonneg (show 0 ≤ t + 65536 * 4 by omega)]
        constructor
        · intro h; right; right; omega
        · intro h; omega
  exact ⟨key, fun h0 => key.mpr (Or.inl h0)⟩

/-- Witness of C1 (amended) at the reading t = 1000003. -/
theorem Time_wrap_iff_witness :
    Time ((1000003 : Int) + 65536 * RTMFP_TIMESTAMP_SCALE) = Time 1000003 :=
  (Time_wrap_iff 1000003 (by decide) (by decide)).2 (by decide)

/-- C2: for non-negative 64-bit readings t1 <= t2 whose scaled values t1/4 and t2/4 differ by
less than 65536, both timestamps lie in 0..65535 and their difference modulo 65536 is
exactly t2/4 - t1/4. -/
theorem Time_delta_mod (t1 t2 : Int) (h0 : 0 ≤ t1) (h12 : t1 ≤ t2) (_hhi : t2 < 2^63)
    (hper : t2 / 4 - t1 / 4 < 65536) :
    (0 ≤ Time t1 ∧ Time t1 ≤ 65535) ∧ (0 ≤ Time t2 ∧ Time t2 ≤ 65535) ∧
    (Time t2 - Time t1) % 65536 = t2 / 4 - t1 / 4 := by
  rw [Time_of_nonneg h0, Time_of_nonneg (show 0 ≤ t2 by omega)]
  omega

/-- Witness of C2 across the wrap boundary: t1 = 262140 has timestamp 65535, t2 = 262144 has
timestamp 0, and the difference modulo 65536 is 1. -/
theorem Time_delta_mod_witness :
    Time 262144 < Time 262140 ∧ (Time 262144 - Time 262140) % 65536 = 1 :=
  ⟨by decide, by
    have h := (Time_delta_mod 262140 262144 (by decide) (by decide) (by decide)
      (by decide)).2.2
    simpa using h⟩

section BoundaryFacts

variable {σ : Type}

/-! ## Boundary: lemmas -/

theorem HandleError_fst (H : Header) (e : Int) (w : World σ) : (HandleError H e w).1 = 0 := by
  unfold HandleError; split <;> rfl

theorem HandleError_of_interrupt (H : Header) (e : Int) (w : World σ) (h : isInterrupt H e) :
    (HandleError H e w).2 = RTMFP_Terminate w := by
  unfold isInterrupt at h
  unfold HandleError; rw [if_pos h]

theorem HandleError_of_not_interrupt (H : Header) (e : Int) (w : World σ)
    (h : ¬ isInterrupt H e) : (HandleError H e w).2 = w := by
  unfold isInterrupt at h
  unfold HandleError; rw [if_neg h]

theorem RTMFP_Terminate_unset (w : World σ) : (RTMFP_Terminate w).GlobalInvoker = none := by
  unfold RTMFP_Terminate
  cases h : w.GlobalInvoker with
  | none => simpa using h
  | some inv => rfl

theorem RTMFP_Terminate_calls (w : World σ) : (RTMFP_Terminate w).calls = w.calls := by
  unfold RTMFP_Terminate
  cases w.GlobalInvoker <;> rfl

theorem HandleError_calls (H : Header) (e : Int) (w : World σ) :
    (HandleError H e w).2.calls = w.calls := by
  by_cases h : isInterrupt H e
  · rw [HandleError_of_interrupt H e w h, RTMFP_Terminate_calls]
  · rw [HandleError_of_not_interrupt H e w h]

theorem toUInt16_of_range {m : Int} (h1 : 1 ≤ m) (h2 : m ≤ 65535) : toUInt16 m = m := by
  unfold toUInt16; omega

/-! ## Boundary: claims C4, C5 and C9 -/

/-- C4: for every error code e, `HandleError` returns 0; when e is `ERROR_LAST_INTERRUPT` or
`ERROR_APP_INTERRUPT` it runs `RTMFP_Terminate`, after which `GlobalInvoker` is unset and
a following call (here `RTMFP_Read`, `RTMFP_Connect`) fails as a precondition error; for
every other code the state is left unchanged; so, starting with the orchestrator set, it is
unset afterwards if and only if e is one of the two interrupt codes. -/
theorem HandleError_teardown_iff (H : Header) (I : Invoker σ) (e : Int) (w : World σ) :
    (HandleError H e w).1 = 0 ∧
    (isInterrupt H e →
      (HandleError H e w).2 = RTMFP_Terminate w ∧
      (HandleError H e w).2.GlobalInvoker = none ∧
      (∀ streamId ctx buf size,
        (RTMFP_Read H I streamId ctx buf size (HandleError H e w).2).1 = -1) ∧
      (∀ url parameters,
        PreconditionError (HandleError H e w).2
          (RTMFP_Connect I url parameters (HandleError H e w).2))) ∧
    (¬ isInterrupt H e → (HandleError H e w).2 = w) ∧
    (w.GlobalInvoker.isSome →
      ((HandleError H e w).2.GlobalInvoker = none ↔ isInterrupt H e)) := by
  refine ⟨HandleError_fst H e w, ?_, HandleError_of_not_interrupt H e w, ?_⟩
  · intro h
    have hu : (HandleError H e w).2.GlobalInvoker = none := by
      rw [HandleError_of_interrupt H e w h]; exact RTMFP_Terminate_unset w
    refine ⟨HandleError_of_interrupt H e w h, hu, ?_, ?_⟩
    · intro streamId ctx buf size
      unfold RTMFP_Read; rw [hu]
    · intro url parameters
      unfold RTMFP_Connect PreconditionError; rw [hu]
      exact ⟨by show toUInt32 0 ≤ 0; decide, rfl, hu⟩
  · intro hs
    constructor
    · intro hn
      by_contra hni
      rw [HandleError_of_not_interrupt H e w hni] at hn
      rw [hn] at hs
      simp at hs
    · intro h
      rw [HandleError_of_interrupt H e w h]; exact RTMFP_Terminate_unset w

/-- Witness of C4 on the sample header: the code -2 (`ERROR_APP_INTERRUPT` there) unsets an
orchestrator that was set, the code -7 leaves it set. -/
theorem HandleError_teardown_iff_witness :
    (HandleError sampleHeader (-2) (freshWorld (some ([3] : List Int)))).2.GlobalInvoker
      = none ∧
    (HandleError sampleHeader (-7) (freshWorld (some ([3] : List Int)))).2.GlobalInvoker
      = some [3] :=
  ⟨((HandleError_teardown_iff sampleHeader scripted (-2) (freshWorld (some [3]))).2.2.2
      rfl).mpr (by decide),
   by rw [(HandleError_teardown_iff sampleHeader scripted (-7)
      (freshWorld (some [3]))).2.2.1 (by decide)]; rfl⟩

/-- C5: with the orchestrator set, let r be the result of the orchestrator read.  When
r >= 0, `RTMFP_Read` returns r (with the buffer the read left and the orchestrator state it
left).  When r < 0 it returns exactly -1, and the orchestrator is unset on return if and
only if r is one of the two interrupt codes (otherwise it stays set, in the state the read
left). -/
theorem RTMFP_Read_result (H : Header) (I : Invoker σ) (streamId ctx : Nat) (buf : List Nat)
    (size : Nat) (w : World σ) (inv : σ) (hw : w.GlobalInvoker = some inv) :
    (0 ≤ (I.read inv ctx streamId buf size).1 →
      RTMFP_Read H I streamId ctx buf size w =
        ((I.read inv ctx streamId buf size).1, (I.read inv ctx streamId buf size).2.1,
          w.called (Call.read ctx) (I.read inv ctx streamId buf size).2.2)) ∧
    ((I.read inv ctx streamId buf size).1 < 0 →
      (RTMFP_Read H I streamId ctx buf size w).1 = -1 ∧
      ((RTMFP_Read H I streamId ctx buf size w).2.2.GlobalInvoker = none ↔
        isInterrupt H (I.read inv ctx streamId buf size).1) ∧
      (¬ isInterrupt H (I.read inv ctx streamId buf size).1 →
        (RTMFP_Read H I streamId ctx buf size w).2.2.GlobalInvoker =
          some (I.read inv ctx streamId buf size).2.2)) := by
  constructor
  · intro h
    unfold RTMFP_Read; rw [hw]
    simp only
    rw [if_neg (by omega)]
  · intro h
    have e : RTMFP_Read H I streamId ctx buf size w =
        (-1, (I.read inv ctx streamId buf size).2.1,
          (HandleError H (I.read inv ctx streamId buf size).1
            (w.called (Call.read ctx) (I.read inv ctx streamId buf size).2.2)).2) := by
      unfold RTMFP_Read; rw [hw]
      simp only
      rw [if_pos h]
    rw [e]
    refine ⟨rfl, ?_, ?_⟩
    · constructor
      · intro hn
        by_contra hni
        rw [HandleError_of_not_interrupt H _ _ hni] at hn
        simp [World.called] at hn
      · intro hi
        show (HandleError H _ _).2.GlobalInvoker = none
        rw [HandleError_of_interrupt H _ _ hi]; exact RTMFP_Terminate_unset _
    · intro hni
      show (HandleError H _ _).2.GlobalInvoker = _
      rw [HandleError_of_not_interrupt H _ _ hni]; rfl

/-- Witness of C5 with the sample orchestrator: a read returning 12 gives 12, a read
returning -9 gives -1. -/
theorem RTMFP_Read_result_witness :
    (RTMFP_Read sampleHeader scripted 1 5 [0, 0] 2 (freshWorld (some [12]))).1 = 12 ∧
    (RTMFP_Read sampleHeader scripted 1 5 [0, 0] 2 (freshWorld (some [-9]))).1 = -1 :=
  ⟨by rw [(RTMFP_Read_result sampleHeader scripted 1 5 [0, 0] 2 (freshWorld (some [12])) [12]
      rfl).1 (by decide)]; rfl,
   ((RTMFP_Read_result sampleHeader scripted 1 5 [0, 0] 2 (freshWorld (some [-9])) [-9]
      rfl).2 (by decide)).1⟩

/-- C9: for every call of `RTMFP_Init` with a non-null config and a non-null groupConfig,
whatever they held and whatever the state, on return groupConfig has
availabilityUpdatePeriod = 100, relayMargin = 2000, fetchPeriod = 2500,
windowDuration = 8000, pushLimit = 4 (all positive), isPublisher = isBlocking = 0, every
byte of its other fields is zero, and every byte of config is zero (sizes unchanged). -/
theorem RTMFP_Init_defaults (I : Invoker σ) (c : RTMFPConfig) (g : RTMFPGroupConfig)
    (onLog onDump : Option Nat) (w : World σ) :
    ∃ c1 g1, (RTMFP_Init I (some c) (some g) onLog onDump w).2 = (some c1, some g1) ∧
      g1.availabilityUpdatePeriod = 100 ∧ g1.relayMargin = 2000 ∧ g1.fetchPeriod = 2500 ∧
      g1.windowDuration = 8000 ∧ g1.pushLimit = 4 ∧
      (0 < g1.availabilityUpdatePeriod ∧ 0 < g1.relayMargin ∧ 0 < g1.fetchPeriod ∧
        0 < g1.windowDuration ∧ 0 < g1.pushLimit) ∧
      g1.isPublisher = 0 ∧ g1.isBlocking = 0 ∧
      g1.rest.length = g.rest.length ∧ (∀ b ∈ g1.rest, b = 0) ∧
      c1.bytes.length = c.bytes.length ∧ (∀ b ∈ c1.bytes, b = 0) := by
  refine ⟨{ bytes := List.replicate c.bytes.length 0 }, groupDefaults g, rfl, rfl, rfl, rfl,
    rfl, rfl, ?_, rfl, rfl, ?_, ?_, ?_, ?_⟩
  · simp [groupDefaults]
  · simp [groupDefaults]
  · intro b hb
    simp only [groupDefaults] at hb
    exact List.eq_of_mem_replicate hb
  · simp
  · intro b hb
    exact List.eq_of_mem_replicate hb

/-! ## Boundary: claim C3 -/

/-- C3 (the code departs from it in `RTMFP_CallFunction`): with `GlobalInvoker` unset, for
every argument, each of `RTMFP_Connect`, `RTMFP_Connect2Peer`, `RTMFP_Connect2Group`,
`RTMFP_Play`, `RTMFP_Publish`, `RTMFP_PublishP2P`, `RTMFP_ClosePublication`,
`RTMFP_CloseStream`, `RTMFP_Read`, `RTMFP_Write` and `RTMFP_WaitForEvent` returns a value
that is zero or negative (0, or -1 for read and write), invokes no method of the
orchestrator and leaves it unset.  `RTMFP_CallFunction` also invokes nothing and leaves the
orchestrator unset, but its `return -1` in a function returning `unsigned int` yields
4294967295, which is neither zero nor negative. -/
theorem unset_orchestrator_returns (H : Header) (I : Invoker σ) (w : World σ)
    (hw : w.GlobalInvoker = none) :
    (∀ url parameters,
      PreconditionError w (RTMFP_Connect I url parameters w) ∧
      (RTMFP_Connect I url parameters w).1 = 0) ∧
    (∀ ctx peerId streamName blocking,
      PreconditionError w (RTMFP_Connect2Peer H I ctx peerId streamName blocking w)) ∧
    (∀ ctx streamName parameters groupParameters audioReliable videoReliable fallbackUrl,
      ∃ r, RTMFP_Connect2Group H I ctx streamName parameters groupParameters audioReliable
          videoReliable fallbackUrl w = some r ∧ PreconditionError w r) ∧
    (∀ ctx streamName, PreconditionError w (RTMFP_Play H I ctx streamName w)) ∧
    (∀ ctx streamName audioReliable videoReliable blocking,
      PreconditionError w
        (RTMFP_Publish H I ctx streamName audioReliable videoReliable blocking w)) ∧
    (∀ ctx streamName audioReliable videoReliable blocking,
      PreconditionError w
        (RTMFP_PublishP2P H I ctx streamName audioReliable videoReliable blocking w)) ∧
    (∀ ctx streamName, PreconditionError w (RTMFP_ClosePublication I ctx streamName w)) ∧
    (∀ ctx streamId, PreconditionError w (RTMFP_CloseStream I ctx streamId w)) ∧
    (∀ streamId ctx buf size,
      (RTMFP_Read H I streamId ctx buf size w).1 = -1 ∧
      PreconditionError w ((RTMFP_Read H I streamId ctx buf size w).1,
        (RTMFP_Read H I streamId ctx buf size w).2.2)) ∧
    (∀ ctx buf size,
      (RTMFP_Write I ctx buf size w).1 = -1 ∧
      PreconditionError w (RTMFP_Write I ctx buf size w)) ∧
    (∀ signedChar ctx mask,
      PreconditionError w (RTMFP_WaitForEvent H I signedChar ctx mask w)) ∧
    (∀ ctx function nbArgs args peerId,
      (RTMFP_CallFunction I ctx function nbArgs args peerId w).1 = 4294967295 ∧
      ¬ (RTMFP_CallFunction I ctx function nbArgs args peerId w).1 ≤ 0 ∧
      (RTMFP_CallFunction I ctx function nbArgs args peerId w).2.calls = w.calls ∧
      (RTMFP_CallFunction I ctx function nbArgs args peerId w).2.GlobalInvoker = none) := by
  have h16 : toUInt16 0 ≤ 0 := by decide
  have hlog : ∀ msg, (w.log msg).calls = w.calls ∧ (w.log msg).GlobalInvoker = none :=
    fun msg => ⟨rfl, hw⟩
  refine ⟨?_, ?_, ?_, ?_, ?_, ?_, ?_, ?_, ?_, ?_, ?_, ?_⟩
  · intro url parameters
    unfold RTMFP_Connect PreconditionError; rw [hw]
    exact ⟨⟨by show toUInt32 0 ≤ 0; decide, hlog _⟩, rfl⟩
  · intro ctx peerId streamName blocking
    unfold RTMFP_Connect2Peer PreconditionError; rw [hw]
    exact ⟨h16, hlog _⟩
  · intro ctx streamName parameters groupParameters audioReliable videoReliable fallbackUrl
    unfold RTMFP_Connect2Group; rw [hw]
    exact ⟨_, rfl, h16, hlog _⟩
  · intro ctx streamName
    unfold RTMFP_Play PreconditionError; rw [hw]
    exact ⟨h16, hlog _⟩
  · intro ctx streamName audioReliable videoReliable blocking
    unfold RTMFP_Publish publishWith PreconditionError; rw [hw]
    exact ⟨h16, hlog _⟩
  · intro ctx streamName audioReliable videoReliable blocking
    unfold RTMFP_PublishP2P publishWith PreconditionError; rw [hw]
    exact ⟨h16, hlog _⟩
  · intro ctx streamName
    unfold RTMFP_ClosePublication PreconditionError; rw [hw]
    exact ⟨h16, rfl, hw⟩
  · intro ctx streamId
    unfold RTMFP_CloseStream PreconditionError; rw [hw]
    exact ⟨h16, rfl, hw⟩
  · intro streamId ctx buf size
    unfold RTMFP_Read PreconditionError; rw [hw]
    exact ⟨rfl, by show (-1 : Int) ≤ 0; decide, hlog _⟩
  · intro ctx buf size
    unfold RTMFP_Write PreconditionError; rw [hw]
    exact ⟨rfl, by show (-1 : Int) ≤ 0; decide, hlog _⟩
  · intro signedChar ctx mask
    unfold RTMFP_WaitForEvent PreconditionError; rw [hw]
    refine ⟨?_, hlog _⟩
    show toChar signedChar 0 ≤ 0
    cases signedChar <;> decide
  · intro ctx function nbArgs args peerId
    unfold RTMFP_CallFunction; rw [hw]
    refine ⟨?_, ?_, hlog _⟩
    · show toUInt32 (-1) = 4294967295
      decide
    · show ¬ toUInt32 (-1) ≤ 0
      decide

/-- Witness of C3 on a state whose orchestrator is unset: `RTMFP_CallFunction` returns
4294967295 there, while `RTMFP_Connect` returns 0. -/
theorem unset_orchestrator_returns_witness :
    (RTMFP_CallFunction scripted 1 ("f") 0 [] ("") (freshWorld none)).1 = 4294967295 ∧
    (RTMFP_Connect scripted ("rtmfp://host/app") none (freshWorld none)).1 = 0 :=
  ⟨((unset_orchestrator_returns sampleHeader scripted (freshWorld none) rfl).2.2.2.2.2.2.2.2.2.2.2
      1 ("f") 0 [] ("")).1,
   ((unset_orchestrator_returns sampleHeader scripted (freshWorld none) rfl).1
      ("rtmfp://host/app") none).2⟩

/-! ## Boundary: claims C6, C7 and C8 -/

theorem not_waited_singleton (c : Call) (h : ∀ ctx mask, c ≠ Call.waitForEvent ctx mask) :
    ¬ waited [c] := by
  rintro ⟨d, hd, ctx, mask, e⟩
  rw [List.mem_singleton] at hd
  exact h ctx mask (hd ▸ e)

theorem waited_of_mem (calls : List Call) (ctx : Nat) (mask : Int)
    (h : Call.waitForEvent ctx mask ∈ calls) : waited calls :=
  ⟨_, h, ctx, mask, rfl⟩

/-- C6 (as stated, refuted): on the sample orchestrator a wait that fails with -5 makes
`RTMFP_WaitForEvent` return 0, not a negative value, whether `char` is signed or not; and a
wait that returns the non-negative value 256 is returned as 0, not as 256. -/
theorem RTMFP_WaitForEvent_counterexample :
    (scripted.waitForEvent [-5] 7 2).1 = -5 ∧
    (RTMFP_WaitForEvent sampleHeader scripted true 7 2 (freshWorld (some [-5]))).1 = 0 ∧
    (RTMFP_WaitForEvent sampleHeader scripted false 7 2 (freshWorld (some [-5]))).1 = 0 ∧
    ¬ (RTMFP_WaitForEvent sampleHeader scripted true 7 2 (freshWorld (some [-5]))).1 < 0 ∧
    (scripted.waitForEvent [256] 7 2).1 = 256 ∧
    (RTMFP_WaitForEvent sampleHeader scripted true 7 2 (freshWorld (some [256]))).1 = 0 ∧
    (RTMFP_WaitForEvent sampleHeader scripted false 7 2 (freshWorld (some [256]))).1 = 0 := by
  decide

/-- C6 (amended): with the orchestrator set, let res be the result of the orchestrator
wait.  When res >= 0, `RTMFP_WaitForEvent` returns res converted to `char`, which is res
itself whenever res <= 127.  When res < 0 it returns 0 (not a negative value), and the
orchestrator is unset on return if and only if res is one of the two interrupt codes. -/
theorem RTMFP_WaitForEvent_result (H : Header) (I : Invoker σ) (signedChar : Bool)
    (ctx : Nat) (mask : Int) (w : World σ) (inv : σ) (hw : w.GlobalInvoker = some inv)
    (res : Int) (inv1 : σ) (hres : I.waitForEvent inv ctx mask = (res, inv1)) :
    (0 ≤ res →
      RTMFP_WaitForEvent H I signedChar ctx mask w =
        (toChar signedChar res, w.called (Call.waitForEvent ctx mask) inv1)) ∧
    (0 ≤ res → res ≤ 127 → (RTMFP_WaitForEvent H I signedChar ctx mask w).1 = res) ∧
    (res < 0 →
      (RTMFP_WaitForEvent H I signedChar ctx mask w).1 = 0 ∧
      ((RTMFP_WaitForEvent H I signedChar ctx mask w).2.GlobalInvoker = none ↔
        isInterrupt H res)) := by
  have hpos : 0 ≤ res →
      RTMFP_WaitForEvent H I signedChar ctx mask w =
        (toChar signedChar res, w.called (Call.waitForEvent ctx mask) inv1) := by
    intro h
    unfold RTMFP_WaitForEvent; rw [hw]
    simp only [hres]
    rw [if_neg (by omega)]
  refine ⟨hpos, ?_, ?_⟩
  · intro h0 h127
    rw [hpos h0]
    show toChar signedChar res = res
    unfold toChar
    cases signedChar
    · simp only [Bool.false_eq_true, if_false]; omega
    · simp only [if_true]; omega
  · intro h
    have e : RTMFP_WaitForEvent H I signedChar ctx mask w =
        (toChar signedChar (HandleError H res
            (w.called (Call.waitForEvent ctx mask) inv1)).1,
          (HandleError H res (w.called (Call.waitForEvent ctx mask) inv1)).2) := by
      unfold RTMFP_WaitForEvent; rw [hw]
      simp only [hres]
      rw [if_pos h]
    rw [e]
    refine ⟨?_, ?_⟩
    · show toChar signedChar (HandleError H res _).1 = 0
      rw [HandleError_fst]
      cases signedChar <;> decide
    · constructor
      · intro hn
        by_contra hni
        rw [HandleError_of_not_interrupt H _ _ hni] at hn
        simp [World.called] at hn
      · intro hi
        show (HandleError H _ _).2.GlobalInvoker = none
        rw [HandleError_of_interrupt H _ _ hi]; exact RTMFP_Terminate_unset _

/-- Witness of C6 (amended): a wait that matches the bits 6 returns 6. -/
theorem RTMFP_WaitForEvent_result_witness :
    (RTMFP_WaitForEvent sampleHeader scripted true 7 6 (freshWorld (some [6]))).1 = 6 :=
  (RTMFP_WaitForEvent_result sampleHeader scripted true 7 6 (freshWorld (some [6])) [6] rfl
    6 [] rfl).2.1 (by decide) (by decide)

/-- C7: with the orchestrator set, let m be the result of the orchestrator connect2Peer.
If m <= 0 the call returns 0 and waits on no event.  If m is in 1..65535 and blocking = 0
it returns m and waits on no event.  If m is in 1..65535 and blocking != 0 it invokes
exactly one wait, on `RTMFP_PEER_CONNECTED` of the same handle, and returns m when that
wait gives a positive result and 0 (which differs from m) otherwise. -/
theorem RTMFP_Connect2Peer_result (H : Header) (I : Invoker σ) (ctx : Nat)
    (peerId streamName : String) (blocking : Int) (w : World σ) (inv : σ)
    (hw : w.GlobalInvoker = some inv) (m : Int) (inv1 : σ)
    (hm : I.connect2Peer inv ctx peerId streamName = (m, inv1)) :
    (m ≤ 0 →
      (RTMFP_Connect2Peer H I ctx peerId streamName blocking w).1 = 0 ∧
      (RTMFP_Connect2Peer H I ctx peerId streamName blocking w).2.calls =
        w.calls ++ [Call.connect2Peer ctx] ∧
      ¬ waited [Call.connect2Peer ctx]) ∧
    (1 ≤ m → m ≤ 65535 → blocking = 0 →
      RTMFP_Connect2Peer H I ctx peerId streamName blocking w =
        (m, w.called (Call.connect2Peer ctx) inv1) ∧
      (RTMFP_Connect2Peer H I ctx peerId streamName blocking w).2.calls =
        w.calls ++ [Call.connect2Peer ctx]) ∧
    (1 ≤ m → m ≤ 65535 → blocking ≠ 0 →
      ∀ ev inv2, I.waitForEvent inv1 ctx H.RTMFP_PEER_CONNECTED = (ev, inv2) →
        (RTMFP_Connect2Peer H I ctx peerId streamName blocking w).2.calls =
          w.calls ++ [Call.connect2Peer ctx, Call.waitForEvent ctx H.RTMFP_PEER_CONNECTED] ∧
        (0 < ev →
          RTMFP_Connect2Peer H I ctx peerId streamName blocking w =
            (m, (w.called (Call.connect2Peer ctx) inv1).called
              (Call.waitForEvent ctx H.RTMFP_PEER_CONNECTED) inv2)) ∧
        (ev ≤ 0 →
          (RTMFP_Connect2Peer H I ctx peerId streamName blocking w).1 = 0 ∧
          (RTMFP_Connect2Peer H I ctx peerId streamName blocking w).1 ≠ m)) := by
  refine ⟨?_, ?_, ?_⟩
  · intro h
    have e : RTMFP_Connect2Peer H I ctx peerId streamName blocking w =
        (toUInt16 (HandleError H m (w.called (Call.connect2Peer ctx) inv1)).1,
          (HandleError H m (w.called (Call.connect2Peer ctx) inv1)).2) := by
      unfold RTMFP_Connect2Peer; rw [hw]
      simp only [hm]
      rw [if_pos h]
    rw [e]
    refine ⟨?_, ?_, not_waited_singleton _ (fun _ _ => by simp)⟩
    · show toUInt16 (HandleError H m _).1 = 0
      rw [HandleError_fst]; decide
    · show (HandleError H m _).2.calls = _
      rw [HandleError_calls]; rfl
  · intro h1 h2 hb
    have e : RTMFP_Connect2Peer H I ctx peerId streamName blocking w =
        (m, w.called (Call.connect2Peer ctx) inv1) := by
      unfold RTMFP_Connect2Peer; rw [hw]
      simp only [hm]
      rw [if_neg (by omega), if_pos hb, toUInt16_of_range h1 h2]
    rw [e]
    exact ⟨rfl, rfl⟩
  · intro h1 h2 hb ev inv2 hev
    have hcalls : ((w.called (Call.connect2Peer ctx) inv1).called
        (Call.waitForEvent ctx H.RTMFP_PEER_CONNECTED) inv2).calls =
        w.calls ++ [Call.connect2Peer ctx, Call.waitForEvent ctx H.RTMFP_PEER_CONNECTED] := by
      simp [World.called]
    by_cases hev0 : 0 < ev
    · have e : RTMFP_Connect2Peer H I ctx peerId streamName blocking w =
          (m, (w.called (Call.connect2Peer ctx) inv1).called
            (Call.waitForEvent ctx H.RTMFP_PEER_CONNECTED) inv2) := by
        unfold RTMFP_Connect2Peer; rw [hw]
        simp only [hm, hev]
        rw [if_neg (by omega), if_neg hb, if_pos (by omega), toUInt16_of_range h1 h2]
      rw [e]
      exact ⟨hcalls, fun _ => rfl, fun h => absurd hev0 (by omega)⟩
    · have e : RTMFP_Connect2Peer H I ctx peerId streamName blocking w =
          (toUInt16 (HandleError H m ((w.called (Call.connect2Peer ctx) inv1).called
              (Call.waitForEvent ctx H.RTMFP_PEER_CONNECTED) inv2)).1,
            (HandleError H m ((w.called (Call.connect2Peer ctx) inv1).called
              (Call.waitForEvent ctx H.RTMFP_PEER_CONNECTED) inv2)).2) := by
        unfold RTMFP_Connect2Peer; rw [hw]
        simp only [hm, hev]
        rw [if_neg (by omega), if_neg hb, if_neg (by omega)]
      rw [e]
      have hz : toUInt16 (HandleError H m ((w.called (Call.connect2Peer ctx) inv1).called
          (Call.waitForEvent ctx H.RTMFP_PEER_CONNECTED) inv2)).1 = 0 := by
        rw [HandleError_fst]; decide
      refine ⟨?_, fun h => absurd h hev0, fun _ => ⟨hz, ?_⟩⟩
      · show (HandleError H m _).2.calls = _
        rw [HandleError_calls]; exact hcalls
      · show toUInt16 _ ≠ m
        rw [hz]; omega

/-- Witness of C7 with the sample orchestrator: connect2Peer gives the media identifier 9 and
the wait gives 0, so the blocking call returns 0 after one wait on the peer-connected
event. -/
theorem RTMFP_Connect2Peer_result_witness :
    (RTMFP_Connect2Peer sampleHeader scripted 3 ("peer") ("stream") 1
      (freshWorld (some [9, 0]))).1 = 0 :=
  (((RTMFP_Connect2Peer_result sampleHeader scripted 3 ("peer") ("stream") 1
    (freshWorld (some [9, 0])) [9, 0] rfl 9 [0] rfl).2.2 (by decide) (by decide) (by decide)
    0 [] rfl).2.2 (by decide)).1

/-- C8: with the orchestrator set and a non-null group configuration g, let m > 0 be the
result of the orchestrator connect2Group.  The call is defined, and the calls it adds to
the history contain a wait if and only if g.isPublisher and g.isBlocking are both non-zero.
In that case it invokes connect2Group and then exactly one wait, on
`RTMFP_GROUP_CONNECTED` of the same handle, in the state connect2Group left; with ev the
result of that wait and inv2 the state it leaves, the call returns m converted to 16 bits
in state inv2 when ev > 0, and 0 in the state `HandleError` makes of inv2 otherwise.  In
every other case (subscriber, or non-blocking publisher) it returns m converted to 16 bits
in the state connect2Group left, having invoked connect2Group only. -/
theorem RTMFP_Connect2Group_waits_iff (H : Header) (I : Invoker σ) (ctx : Nat)
    (streamName : String) (parameters : Option RTMFPConfig) (g : RTMFPGroupConfig)
    (audioReliable videoReliable : Nat) (fallbackUrl : String) (w : World σ) (inv : σ)
    (hw : w.GlobalInvoker = some inv) (m : Int) (inv1 : σ)
    (hm : I.connect2Group inv ctx streamName parameters (some g) (decide (audioReliable > 0))
      (decide (videoReliable > 0)) fallbackUrl = (m, inv1))
    (hpos : 0 < m) :
    ∃ r added,
      RTMFP_Connect2Group H I ctx streamName parameters (some g) audioReliable videoReliable
        fallbackUrl w = some r ∧
      r.2.calls = w.calls ++ added ∧
      (waited added ↔ (g.isPublisher ≠ 0 ∧ g.isBlocking ≠ 0)) ∧
      ((g.isPublisher ≠ 0 ∧ g.isBlocking ≠ 0) →
        added = [Call.connect2Group ctx, Call.waitForEvent ctx H.RTMFP_GROUP_CONNECTED] ∧
        ∀ ev inv2, I.waitForEvent inv1 ctx H.RTMFP_GROUP_CONNECTED = (ev, inv2) →
          (0 < ev →
            r = (toUInt16 m, (w.called (Call.connect2Group ctx) inv1).called
              (Call.waitForEvent ctx H.RTMFP_GROUP_CONNECTED) inv2)) ∧
          (ev ≤ 0 →
            r = (0, (HandleError H m ((w.called (Call.connect2Group ctx) inv1).called
              (Call.waitForEvent ctx H.RTMFP_GROUP_CONNECTED) inv2)).2))) ∧
      (¬ (g.isPublisher ≠ 0 ∧ g.isBlocking ≠ 0) →
        added = [Call.connect2Group ctx] ∧
        r = (toUInt16 m, w.called (Call.connect2Group ctx) inv1)) := by
  by_cases hc : g.isPublisher = 0 ∨ g.isBlocking = 0
  · have hc2 : ¬ (g.isPublisher ≠ 0 ∧ g.isBlocking ≠ 0) := by
      rintro ⟨h1, h2⟩; exact hc.elim h1 h2
    refine ⟨(toUInt16 m, w.called (Call.connect2Group ctx) inv1), [Call.connect2Group ctx],
      ?_, rfl, ?_, fun h => absurd h hc2, fun _ => ⟨rfl, rfl⟩⟩
    · unfold RTMFP_Connect2Group; rw [hw]
      simp only [hm]
      rw [if_neg (by omega), if_pos hc]
    · constructor
      · intro hwt
        exact absurd hwt (not_waited_singleton _ (fun _ _ => by simp))
      · intro h; exact absurd h hc2
  · have hc2 : g.isPublisher ≠ 0 ∧ g.isBlocking ≠ 0 := by
      constructor
      · intro h; exact hc (Or.inl h)
      · intro h; exact hc (Or.inr h)
    have hcalls : ((w.called (Call.connect2Group ctx) inv1).called
        (Call.waitForEvent ctx H.RTMFP_GROUP_CONNECTED)
        (I.waitForEvent inv1 ctx H.RTMFP_GROUP_CONNECTED).2).calls =
        w.calls ++ [Call.connect2Group ctx,
          Call.waitForEvent ctx H.RTMFP_GROUP_CONNECTED] := by
      simp [World.called]
    have hwaited : waited [Call.connect2Group ctx,
        Call.waitForEvent ctx H.RTMFP_GROUP_CONNECTED] :=
      waited_of_mem _ ctx H.RTMFP_GROUP_CONNECTED (by simp)
    by_cases hev : (I.waitForEvent inv1 ctx H.RTMFP_GROUP_CONNECTED).1 > 0
    · refine ⟨(toUInt16 m, (w.called (Call.connect2Group ctx) inv1).called
          (Call.waitForEvent ctx H.RTMFP_GROUP_CONNECTED)
          (I.waitForEvent inv1 ctx H.RTMFP_GROUP_CONNECTED).2),
        [Call.connect2Group ctx, Call.waitForEvent ctx H.RTMFP_GROUP_CONNECTED],
        ?_, hcalls, ⟨fun _ => hc2, fun _ => hwaited⟩, fun _ => ⟨rfl, ?_⟩,
        fun h => absurd hc2 h⟩
      · unfold RTMFP_Connect2Group; rw [hw]
        simp only [hm]
        rw [if_neg (by omega), if_neg hc, if_pos hev]
      · intro ev inv2 hq
        rw [hq] at hev ⊢
        exact ⟨fun _ => rfl, fun h => absurd hev (by simp only [gt_iff_lt]; omega)⟩
    · refine ⟨(toUInt16 (HandleError H m ((w.called (Call.connect2Group ctx) inv1).called
          (Call.waitForEvent ctx H.RTMFP_GROUP_CONNECTED)
          (I.waitForEvent inv1 ctx H.RTMFP_GROUP_CONNECTED).2)).1,
          (HandleError H m ((w.called (Call.connect2Group ctx) inv1).called
          (Call.waitForEvent ctx H.RTMFP_GROUP_CONNECTED)
          (I.waitForEvent inv1 ctx H.RTMFP_GROUP_CONNECTED).2)).2),
        [Call.connect2Group ctx, Call.waitForEvent ctx H.RTMFP_GROUP_CONNECTED],
        ?_, ?_, ⟨fun _ => hc2, fun _ => hwaited⟩, fun _ => ⟨rfl, ?_⟩,
        fun h => absurd hc2 h⟩
      · unfold RTMFP_Connect2Group; rw [hw]
        simp only [hm]
        rw [if_neg (by omega), if_neg hc, if_neg hev]
      · show (HandleError H m _).2.calls = _
        rw [HandleError_calls]; exact hcalls
      · intro ev inv2 hq
        rw [hq] at hev ⊢
        refine ⟨fun h => absurd h hev, fun _ => ?_⟩
        rw [HandleError_fst]
        rfl

/-- Witness of C8 with the sample orchestrator, for a publisher that asks for a blocking
connect: connect2Group gives the media identifier 5 and the wait on the group-connected
event gives 1, so the call returns 5 in the state that wait left, after exactly that
wait. -/
theorem RTMFP_Connect2Group_waits_iff_witness :
    ∃ r,
      RTMFP_Connect2Group sampleHeader scripted 3 ("stream") none
        (some { isPublisher := 1, isBlocking := 1, availabilityUpdatePeriod := 100,
                relayMargin := 2000, fetchPeriod := 2500, windowDuration := 8000,
                pushLimit := 4, rest := [] })
        1 1 ("") (freshWorld (some [5, 1])) = some r ∧
      r.1 = 5 ∧ r.2.GlobalInvoker = some [] ∧
      r.2.calls = [Call.connect2Group 3,
        Call.waitForEvent 3 sampleHeader.RTMFP_GROUP_CONNECTED] := by
  obtain ⟨r, added, hr, hcalls, -, hblk, -⟩ :=
    RTMFP_Connect2Group_waits_iff sampleHeader scripted 3 ("stream") none
      { isPublisher := 1, isBlocking := 1, availabilityUpdatePeriod := 100,
        relayMargin := 2000, fetchPeriod := 2500, windowDuration := 8000,
        pushLimit := 4, rest := [] }
      1 1 ("") (freshWorld (some [5, 1])) [5, 1] rfl 5 [1] rfl (by decide)
  obtain ⟨hadded, hwait⟩ := hblk (by decide)
  have hres := (hwait 1 [] rfl).1 (by decide)
  refine ⟨r, hr, ?_, ?_, ?_⟩
  · rw [hres]; rfl
  · rw [hres]; rfl
  · rw [hcalls, hadded]; rfl

end BoundaryFacts

/-! ## `RTMFP_GetPublicationAndUrlFromUri` : lemmas and claim C10 -/

theorem strrchrFrom_absent (c : Nat) (hc : c ≠ 0) (post : List Nat) :
    ∀ (s : List Nat) (addr : Nat) (last : Option Nat), (∀ b ∈ s, b ≠ 0) → c ∉ s →
      strrchrFrom c (s ++ 0 :: post) addr last = some last := by
  intro s
  induction s with
  | nil =>
    intro addr last _ _
    simp [strrchrFrom, hc.symm]
  | cons b rest ih =>
    intro addr last hz hn
    have hb0 : b ≠ 0 := hz b (List.mem_cons_self _ _)
    have hbc : b ≠ c := fun h => hn (h ▸ List.mem_cons_self _ _)
    have hrest : strrchrFrom c (rest ++ 0 :: post) (addr + 1) last = some last :=
      ih (addr + 1) last (fun x hx => hz x (List.mem_cons_of_mem _ hx))
        (fun h => hn (List.mem_cons_of_mem _ h))
    simp [strrchrFrom, hb0, hbc, hrest]

theorem strrchrFrom_last (c : Nat) (hc : c ≠ 0) (post : List Nat) :
    ∀ (s : List Nat) (i addr : Nat) (last : Option Nat), (∀ b ∈ s, b ≠ 0) →
      s[i]? = some c → (∀ j : Nat, i < j → s[j]? ≠ some c) →
      strrchrFrom c (s ++ 0 :: post) addr last = some (some (addr + i)) := by
  intro s
  induction s with
  | nil =>
    intro i addr last _ hi _
    simp at hi
  | cons b rest ih =>
    intro i addr last hz hi hmax
    have hb0 : b ≠ 0 := hz b (List.mem_cons_self _ _)
    have hzr : ∀ x ∈ rest, x ≠ 0 := fun x hx => hz x (List.mem_cons_of_mem _ hx)
    cases i with
    | zero =>
      have hbc : b = c := by simpa using hi
      have hn : c ∉ rest := by
        intro hmem
        obtain ⟨k, hk⟩ := List.getElem?_of_mem hmem
        exact hmax (k + 1) (Nat.succ_pos k) (by simpa using hk)
      have hrest := strrchrFrom_absent c hc post rest (addr + 1) (some addr) hzr hn
      simp [strrchrFrom, hb0, hbc, hc, hrest]
    | succ k =>
      have hk : rest[k]? = some c := by simpa using hi
      have hmaxr : ∀ j, k < j → rest[j]? ≠ some c := by
        intro j hj
        have := hmax (j + 1) (by omega)
        simpa using this
      have hrest := ih k (addr + 1) (if b = c then some addr else last) hzr hk hmaxr
      have e : addr + 1 + k = addr + (k + 1) := by omega
      simp [strrchrFrom, hb0, hrest, e]

theorem exists_last_index (c : Nat) :
    ∀ (s : List Nat), c ∈ s → ∃ i : Nat, s[i]? = some c ∧ ∀ j : Nat, i < j → s[j]? ≠ some c := by
  intro s
  induction s with
  | nil => intro h; simp at h
  | cons b rest ih =>
    intro h
    by_cases hr : c ∈ rest
    · obtain ⟨i, hi, hmax⟩ := ih hr
      refine ⟨i + 1, by simpa using hi, ?_⟩
      intro j hj
      cases j with
      | zero => omega
      | succ k =>
        have := hmax k (by omega)
        simpa using this
    · have hb : c = b := by
        rcases List.mem_cons.mp h with h1 | h1
        · exact h1
        · exact absurd h1 hr
      refine ⟨0, by simp [hb], ?_⟩
      intro j hj
      cases j with
      | zero => omega
      | succ k =>
        intro hk
        have hk2 : rest[k]? = some c := by simpa using hk
        exact hr (List.getElem?_mem hk2)

theorem cstrFrom_append (post : List Nat) :
    ∀ (a : List Nat), (∀ b ∈ a, b ≠ 0) → cstrFrom (a ++ 0 :: post) = some a := by
  intro a
  induction a with
  | nil => intro _; simp [cstrFrom]
  | cons b rest ih =>
    intro hz
    have hb0 : b ≠ 0 := hz b (List.mem_cons_self _ _)
    have hrest := ih (fun x hx => hz x (List.mem_cons_of_mem _ hx))
    simp [cstrFrom, hb0, hrest]


theorem set_in_buffer (pre s post : List Nat) (i : Nat) (hi : i < s.length) :
    (pre ++ (s ++ 0 :: post)).set (pre.length + i) 0 =
      pre ++ (s.take i ++ 0 :: (s.drop (i + 1) ++ 0 :: post)) := by
  rw [List.set_append_right _ _ (by omega)]
  have e : pre.length + i - pre.length = i := by omega
  rw [e, List.set_append_left _ _ hi, List.set_eq_take_cons_drop _ hi]
  simp

theorem strrchr_in_buffer (pre s post : List Nat) (c : Nat) :
    strrchr (pre ++ (s ++ 0 :: post)) pre.length c =
      strrchrFrom c (s ++ 0 :: post) pre.length none := by
  unfold strrchr
  rw [List.drop_left]

/-- What the two `strrchr` calls give when the last separator of `s` is at index `i`. -/
theorem split_at_last (pre s post : List Nat) (publication : Option Nat)
    (hs : ∀ b ∈ s, b ≠ 0) (i sep : Nat) (hi : s[i]? = some sep) (hsep : isSeparator sep)
    (hmax : ∀ (j b : Nat), i < j → s[j]? = some b → ¬ isSeparator b) :
    RTMFP_GetPublicationAndUrlFromUri (pre ++ (s ++ 0 :: post)) pre.length publication =
      some ((pre ++ (s ++ 0 :: post)).set (pre.length + i) 0, some (pre.length + i + 1)) := by
  have hb0 : backslash ≠ 0 := by decide
  have hs0 : slash ≠ 0 := by decide
  unfold RTMFP_GetPublicationAndUrlFromUri
  rw [strrchr_in_buffer, strrchr_in_buffer]
  rcases hsep with hsl | hbs
  · -- the last separator is a slash
    subst hsl
    have h2 := strrchrFrom_last slash hs0 post s i pre.length none hs hi
      (fun j hj hc => hmax j slash hj hc (Or.inl rfl))
    rw [h2]
    by_cases hmem : backslash ∈ s
    · obtain ⟨k, hk, hkmax⟩ := exists_last_index backslash s hmem
      have h1 := strrchrFrom_last backslash hb0 post s k pre.length none hs hk hkmax
      have hki : k < i := by
        rcases Nat.lt_trichotomy k i with h | h | h
        · exact h
        · subst h; rw [hi] at hk; exact absurd (Option.some.inj hk) (by decide)
        · exact absurd (Or.inr rfl) (hmax k backslash h hk)
      rw [h1]
      simp only
      rw [if_neg (by omega), if_neg (by omega)]
    · have h1 := strrchrFrom_absent backslash hb0 post s pre.length none hs hmem
      rw [h1]
  · -- the last separator is a backslash
    subst hbs
    have h1 := strrchrFrom_last backslash hb0 post s i pre.length none hs hi
      (fun j hj hc => hmax j backslash hj hc (Or.inr rfl))
    rw [h1]
    by_cases hmem : slash ∈ s
    · obtain ⟨k, hk, hkmax⟩ := exists_last_index slash s hmem
      have h2 := strrchrFrom_last slash hs0 post s k pre.length none hs hk hkmax
      have hki : k < i := by
        rcases Nat.lt_trichotomy k i with h | h | h
        · exact h
        · subst h; rw [hi] at hk; exact absurd (Option.some.inj hk) (by decide)
        · exact absurd (Or.inl rfl) (hmax k slash h hk)
      rw [h2]
      simp only
      rw [if_pos (by omega), if_pos (by omega)]
    · have h2 := strrchrFrom_absent slash hs0 post s pre.length none hs hmem
      rw [h2]

/-- C10: let the buffer hold, at address uri, a NUL-terminated string s (no byte of s is 0).
If i is the greatest index of s holding '/' or the backslash, the call is defined, writes
NUL at uri + i and sets *publication to uri + i + 1: afterwards the C string at uri is
s[0..i), the C string at *publication is s[i+1..], which holds neither separator, and
s[0..i) ++ [s[i]] ++ s[i+1..] = s.  If s holds neither character, memory and *publication
are unchanged. -/
theorem RTMFP_GetPublicationAndUrlFromUri_split (pre s post : List Nat)
    (publication : Option Nat) (hs : ∀ b ∈ s, b ≠ 0) :
    cstr (pre ++ (s ++ 0 :: post)) pre.length = some s ∧
    (∀ (i sep : Nat), s[i]? = some sep → isSeparator sep →
      (∀ (j b : Nat), i < j → s[j]? = some b → ¬ isSeparator b) →
      ∃ mem1,
        RTMFP_GetPublicationAndUrlFromUri (pre ++ (s ++ 0 :: post)) pre.length publication =
          some (mem1, some (pre.length + i + 1)) ∧
        mem1 = pre ++ (s.take i ++ 0 :: (s.drop (i + 1) ++ 0 :: post)) ∧
        cstr mem1 pre.length = some (s.take i) ∧
        cstr mem1 (pre.length + i + 1) = some (s.drop (i + 1)) ∧
        (∀ b ∈ s.drop (i + 1), ¬ isSeparator b) ∧
        s.take i ++ sep :: s.drop (i + 1) = s) ∧
    ((∀ b ∈ s, ¬ isSeparator b) →
      RTMFP_GetPublicationAndUrlFromUri (pre ++ (s ++ 0 :: post)) pre.length publication =
        some (pre ++ (s ++ 0 :: post), publication)) := by
  refine ⟨?_, ?_, ?_⟩
  · unfold cstr
    rw [List.drop_left]
    exact cstrFrom_append post s hs
  · intro i sep hi hsep hmax
    obtain ⟨hlt, hget⟩ := List.getElem?_eq_some.mp hi
    refine ⟨_, split_at_last pre s post publication hs i sep hi hsep hmax, ?_⟩
    rw [set_in_buffer pre s post i hlt]
    refine ⟨rfl, ?_, ?_, ?_, ?_⟩
    · unfold cstr
      rw [List.drop_left]
      exact cstrFrom_append _ _ (fun b hb => hs b (List.mem_of_mem_take hb))
    · unfold cstr
      have e : pre ++ (s.take i ++ 0 :: (s.drop (i + 1) ++ 0 :: post)) =
          (pre ++ (s.take i ++ [0])) ++ (s.drop (i + 1) ++ 0 :: post) := by simp
      rw [e, List.drop_left' (by simp; omega)]
      exact cstrFrom_append _ _ (fun b hb => hs b (List.mem_of_mem_drop hb))
    · intro b hb
      obtain ⟨k, hk⟩ := List.getElem?_of_mem hb
      rw [List.getElem?_drop] at hk
      exact hmax (i + 1 + k) b (by omega) hk
    · rw [← hget, ← List.drop_eq_getElem_cons hlt, List.take_append_drop]
  · intro hnone
    have hb0 : backslash ≠ 0 := by decide
    have hs0 : slash ≠ 0 := by decide
    unfold RTMFP_GetPublicationAndUrlFromUri
    rw [strrchr_in_buffer, strrchr_in_buffer,
      strrchrFrom_absent backslash hb0 post s pre.length none hs
        (fun h => hnone _ h (Or.inr rfl)),
      strrchrFrom_absent slash hs0 post s pre.length none hs
        (fun h => hnone _ h (Or.inl rfl))]

/-- Witness of C10 on the string a/b\\c (bytes 97 47 98 92 99): the split is made at the
backslash, index 3, leaving a/b in the uri buffer and c as the publication. -/
theorem RTMFP_GetPublicationAndUrlFromUri_split_witness :
    RTMFP_GetPublicationAndUrlFromUri [97, 47, 98, 92, 99, 0] 0 none =
      some ([97, 47, 98, 0, 99, 0], some 4) ∧
    cstr [97, 47, 98, 0, 99, 0] 0 = some [97, 47, 98] ∧
    cstr [97, 47, 98, 0, 99, 0] 4 = some [99] := by
  obtain ⟨mem1, h1, h2, h3, h4, -, -⟩ :=
    (RTMFP_GetPublicationAndUrlFromUri_split [] [97, 47, 98, 92, 99] [] none
      (by decide)).2.1 3 92 rfl (by decide) (by
        intro j b hj hb
        have h4 : j = 4 := by
          have hl := (List.getElem?_eq_some.mp hb).1
          simp at hl
          omega
        subst h4
        have hb99 : b = 99 := by simpa using hb.symm
        subst hb99
        decide)
  subst h2
  exact ⟨h1, h3, h4⟩

end RTMFP
